import Mathlib

/-!
Verification of the kenchi outlier-detection library.

The development embeds, as Lean functions over `ℝ`-valued sample matrices:

* the k-nearest-neighbor anomaly scoring of
  `kenchi/outlier_detection/empirical_distns.py` (`EmpiricalOutlierDetector`),
* the abstract detector lifecycle of `kenchi/outlier_detection/base.py`
  (`BaseOutlierDetector`: parameter check, data check, fit, self-scoring,
  percentile threshold, min-max normalizer, predict) together with
  `OutlierMixin.fit_predict`,
* the transform-chain delegation of `kenchi/pipeline.py` (`ExtendedPipeline`).

Machine floats are modelled by real numbers; the IEEE value `-inf` produced by
`np.log(0)` is modelled in `EReal`.
-/

namespace Kenchi

/-- A sample matrix: a list of rows, each row a list of feature values.
Models the 2-D `ndarray` of shape `(n_samples, n_features)`. -/
abbrev Mat := List (List ℝ)

/-! ### Sorting reals (the order underlying `np.percentile` and `np.sort`) -/

/-- Insert a value into a (sorted) list of reals, keeping order. -/
noncomputable def insortR (x : ℝ) : List ℝ → List ℝ
  | [] => [x]
  | y :: ys => if x ≤ y then x :: y :: ys else y :: insortR x ys

/-- Sort a list of reals into ascending order (insertion sort). -/
noncomputable def sortR : List ℝ → List ℝ
  | [] => []
  | x :: xs => insortR x (sortR xs)

theorem insortR_perm (x : ℝ) (l : List ℝ) : List.Perm (insortR x l) (x :: l) := by
  induction l with
  | nil => simp [insortR]
  | cons y ys ih =>
    by_cases h : x ≤ y
    · simp [insortR, h]
    · simpa [insortR, h] using ((ih.cons y).trans (List.Perm.swap x y ys))

theorem sortR_perm (l : List ℝ) : List.Perm (sortR l) l := by
  induction l with
  | nil => simp [sortR]
  | cons x xs ih => exact (insortR_perm x (sortR xs)).trans (ih.cons x)

theorem insortR_sorted (x : ℝ) (l : List ℝ) (h : l.Sorted (· ≤ ·)) :
    (insortR x l).Sorted (· ≤ ·) := by
  induction l with
  | nil => simp [insortR]
  | cons y ys ih =>
    rcases List.sorted_cons.1 h with ⟨hy, hys⟩
    by_cases hxy : x ≤ y
    · rw [insortR, if_pos hxy]
      refine List.sorted_cons.2 ⟨?_, h⟩
      intro b hb
      rcases List.mem_cons.1 hb with hb | hb
      · subst hb; exact hxy
      · exact hxy.trans (hy b hb)
    · rw [insortR, if_neg hxy]
      refine List.sorted_cons.2 ⟨?_, ih hys⟩
      intro b hb
      rcases List.mem_cons.1 ((insortR_perm x ys).mem_iff.1 hb) with hb | hb
      · subst hb; exact le_of_not_le hxy
      · exact hy b hb

theorem sortR_sorted (l : List ℝ) : (sortR l).Sorted (· ≤ ·) := by
  induction l with
  | nil => simp [sortR]
  | cons x xs ih => exact insortR_sorted x (sortR xs) ih

theorem sortR_length (l : List ℝ) : (sortR l).length = l.length :=
  (sortR_perm l).length_eq

theorem sortR_nodup (l : List ℝ) (h : l.Nodup) : (sortR l).Nodup :=
  ((sortR_perm l).nodup_iff).2 h

/-! ### `np.min` / `np.max` over a nonempty array -/

/-- Maximum of a list of reals; equals `np.max` on nonempty input. -/
noncomputable def listMax (l : List ℝ) : ℝ := l.foldr max (l.headD 0)

/-- Minimum of a list of reals; equals `np.min` on nonempty input. -/
noncomputable def listMin (l : List ℝ) : ℝ := l.foldr min (l.headD 0)

theorem foldr_max_le_iff (a : ℝ) (l : List ℝ) (b : ℝ) :
    l.foldr max a ≤ b ↔ a ≤ b ∧ ∀ x ∈ l, x ≤ b := by
  induction l with
  | nil => simp
  | cons y ys ih => simp [max_le_iff, ih]; tauto

theorem le_foldr_min_iff (a : ℝ) (l : List ℝ) (b : ℝ) :
    b ≤ l.foldr min a ↔ b ≤ a ∧ ∀ x ∈ l, b ≤ x := by
  induction l with
  | nil => simp
  | cons y ys ih => simp [le_min_iff, ih]; tauto

theorem le_listMax (l : List ℝ) (x : ℝ) (hx : x ∈ l) : x ≤ listMax l := by
  have := (foldr_max_le_iff (l.headD 0) l (listMax l)).1 le_rfl
  exact this.2 x hx

theorem listMin_le (l : List ℝ) (x : ℝ) (hx : x ∈ l) : listMin l ≤ x := by
  have := (le_foldr_min_iff (l.headD 0) l (listMin l)).1 le_rfl
  exact this.2 x hx

theorem foldr_max_mem (a : ℝ) (l : List ℝ) : l.foldr max a = a ∨ l.foldr max a ∈ l := by
  induction l with
  | nil => simp
  | cons y ys ih =>
    rcases le_total y (ys.foldr max a) with h | h
    · rcases ih with ih | ih
      · refine Or.inl ?_
        show max y (ys.foldr max a) = a
        rw [max_eq_right h, ih]
      · refine Or.inr ?_
        show max y (ys.foldr max a) ∈ y :: ys
        rw [max_eq_right h]
        exact List.mem_cons_of_mem y ih
    · refine Or.inr ?_
      show max y (ys.foldr max a) ∈ y :: ys
      rw [max_eq_left h]
      exact List.mem_cons_self y ys

theorem foldr_min_mem (a : ℝ) (l : List ℝ) : l.foldr min a = a ∨ l.foldr min a ∈ l := by
  induction l with
  | nil => simp
  | cons y ys ih =>
    rcases le_total (ys.foldr min a) y with h | h
    · rcases ih with ih | ih
      · refine Or.inl ?_
        show min y (ys.foldr min a) = a
        rw [min_eq_right h, ih]
      · refine Or.inr ?_
        show min y (ys.foldr min a) ∈ y :: ys
        rw [min_eq_right h]
        exact List.mem_cons_of_mem y ih
    · refine Or.inr ?_
      show min y (ys.foldr min a) ∈ y :: ys
      rw [min_eq_left h]
      exact List.mem_cons_self y ys

theorem headD_mem (l : List ℝ) (h : l ≠ []) : l.headD 0 ∈ l := by
  cases l with
  | nil => exact absurd rfl h
  | cons x xs => exact List.mem_cons_self x xs

theorem listMax_mem (l : List ℝ) (h : l ≠ []) : listMax l ∈ l := by
  rcases foldr_max_mem (l.headD 0) l with h' | h'
  · rw [listMax, h']
    exact headD_mem l h
  · exact h'

theorem listMin_mem (l : List ℝ) (h : l ≠ []) : listMin l ∈ l := by
  rcases foldr_min_mem (l.headD 0) l with h' | h'
  · rw [listMin, h']
    exact headD_mem l h
  · exact h'

/-! ### `np.percentile` with linear interpolation

`np.percentile(a, q)` sorts `a` ascending, computes the fractional index
`h = q/100 * (n-1)`, and linearly interpolates between the values at
`⌊h⌋` and `⌊h⌋ + 1`. -/

/-- `np.percentile(l, q)` under the default linear-interpolation semantics. -/
noncomputable def npPercentile (l : List ℝ) (q : ℝ) : ℝ :=
  let s := sortR l
  let h : ℝ := q / 100 * ((l.length : ℝ) - 1)
  let i : ℕ := ⌊h⌋₊
  let lo := s.getD i 0
  let hi := s.getD (i + 1) lo
  lo + (h - (i : ℝ)) * (hi - lo)

/-! ### The threshold comparison of `BaseOutlierDetector.predict`

`np.where(anomaly_score <= threshold, 1, -1)`, stated over any linear order so
that it also covers IEEE `-inf` scores (modelled in `EReal`). -/

/-- `np.where(scores <= t, 1, -1)`: the elementwise label comparison of
`BaseOutlierDetector.predict`. -/
def npWhereLe {α : Type} [LinearOrder α] (scores : List α) (t : α) : List ℤ :=
  scores.map (fun s => if s ≤ t then 1 else -1)

theorem npWhereLe_length {α : Type} [LinearOrder α] (scores : List α) (t : α) :
    (npWhereLe scores t).length = scores.length := by
  simp [npWhereLe]

/-- The outliers flagged by the predict comparison are exactly the scores
strictly above the threshold. -/
theorem count_npWhereLe_neg {α : Type} [LinearOrder α] (scores : List α) (t : α) :
    (npWhereLe scores t).count (-1) = scores.countP (fun x => decide (t < x)) := by
  induction scores with
  | nil => simp [npWhereLe]
  | cons y ys ih =>
    by_cases h : y ≤ t
    · have ht : ¬ t < y := not_lt.2 h
      simp [npWhereLe, List.count_cons, List.countP_cons, h, ht] at ih ⊢
      simpa [npWhereLe] using ih
    · have ht : t < y := lt_of_not_le h
      simp [npWhereLe, List.count_cons, List.countP_cons, h, ht] at ih ⊢
      simpa [npWhereLe] using ih

/-! ### Error kinds (spec section 7) -/

/-- The error taxonomy of the detector lifecycle: `InvalidParameter` (bad
hyperparameter at fit time), `InvalidInput` (malformed data), `NotFittedError`
(scoring before a successful fit). -/
inductive KErr : Type
  | invalidParameter
  | invalidInput
  | notFitted
  deriving DecidableEq

/-- `sklearn.utils.check_array` on a list-of-rows matrix: rejects an empty
matrix, empty rows, and ragged rows; returns the matrix unchanged otherwise. -/
def checkArray (X : Mat) : Except KErr Mat :=
  if X.length ≠ 0 ∧ (X.headD []).length ≠ 0 ∧ ∀ row ∈ X, row.length = (X.headD []).length
  then .ok X else .error .invalidInput

theorem checkArray_ok_eq (X X' : Mat) (h : checkArray X = .ok X') : X' = X := by
  by_cases hc : X.length ≠ 0 ∧ (X.headD []).length ≠ 0 ∧ ∀ row ∈ X, row.length = (X.headD []).length
  · rw [checkArray, if_pos hc] at h
    cases h
    rfl
  · rw [checkArray, if_neg hc] at h
    exact absurd h (by simp)

/-! ### The k-NN anomaly score of `EmpiricalOutlierDetector.anomaly_score`

`radius = np.max(dist, axis=1)` and
`score = -np.log(n_neighbors) + n_features * np.log(radius)`.
`np.log` on nonnegative floats returns `-inf` at `0`; the score therefore
lives in `EReal`. -/

/-- `np.log` on a nonnegative float: `-inf` at `0`, the real logarithm
otherwise. -/
noncomputable def npLog (x : ℝ) : EReal :=
  if x = 0 then ⊥ else ((Real.log x : ℝ) : EReal)

/-- `np.max` over one row of neighbor distances (a nonempty list):
the local density-ball radius. -/
noncomputable def radiusOf (dist : List ℝ) : ℝ := listMax dist

/-- The raw anomaly score of one query sample, from its list of k
nearest-neighbor distances: `-np.log(n_neighbors) + n_features * np.log(radius)`
(`EmpiricalOutlierDetector.anomaly_score`). -/
noncomputable def anomalyScoreRow (n_neighbors n_features : ℕ) (dist : List ℝ) : EReal :=
  -(npLog (n_neighbors : ℝ)) + ((n_features : ℝ) : EReal) * npLog (radiusOf dist)

/-! ### The external `NearestNeighbors` collaborator

`empirical_distns.py` builds `NearestNeighbors(metric='minkowski', p=p,
n_neighbors=k).fit(X)` and queries `kneighbors(X)`.  The collaborator is
modelled per its contract: it stores the training rows and, for a query row,
returns the `k` smallest Minkowski-`p` distances to the stored rows (sorted
ascending, the query row itself included when it is a training row); querying
with `k` larger than the number of stored rows is an error
("Expected n_neighbors <= n_samples"). -/

/-- Minkowski distance with power `p` between two feature rows. -/
noncomputable def minkowski (p : ℝ) (x y : List ℝ) : ℝ :=
  (((x.zip y).map (fun ab => |ab.1 - ab.2| ^ p)).sum) ^ (1 / p)

/-- The row of `k` nearest-neighbor distances returned by
`NearestNeighbors.kneighbors` for one query row. -/
noncomputable def kneighborsDists (train : Mat) (k : ℕ) (p : ℝ) (x : List ℝ) : List ℝ :=
  (sortR (train.map (minkowski p x))).take k

/-- The real-valued anomaly score of one query row computed by
`EmpiricalOutlierDetector.anomaly_score`:
`-np.log(n_neighbors) + n_features * np.log(radius)` with
`n_features = row length`.  Valid for positive radii (the `radius = 0` case
yields IEEE `-inf`, captured by the `EReal`-valued `anomalyScoreRow`;
`score_models_agree` relates the two). -/
noncomputable def empiricalScoreRow (k : ℕ) (p : ℝ) (train : Mat) (x : List ℝ) : ℝ :=
  -Real.log (k : ℝ) + ((x.length : ℝ)) * Real.log (radiusOf (kneighborsDists train k p x))

/-- On a positive radius the `EReal` score is the coercion of the real score:
the two models of `EmpiricalOutlierDetector.anomaly_score` agree away from the
`log(0) = -inf` edge case. -/
theorem score_models_agree (k nf : ℕ) (dist : List ℝ) (hk : (k : ℝ) ≠ 0)
    (hr : radiusOf dist ≠ 0) :
    anomalyScoreRow k nf dist
      = ((-Real.log (k : ℝ) + (nf : ℝ) * Real.log (radiusOf dist) : ℝ) : EReal) := by
  rw [anomalyScoreRow, npLog, npLog, if_neg hk, if_neg hr]
  rw [← EReal.coe_mul, ← EReal.coe_neg, ← EReal.coe_add]

/-- The fitted state of `EmpiricalOutlierDetector`: the `_neigh` index (which
stores the training rows) and `threshold_`. -/
structure EmpiricalState : Type where
  neigh : Mat
  threshold_ : ℝ

/-- `EmpiricalOutlierDetector.anomaly_score` (real-valued branch):
`check_is_fitted(self, '_neigh')`, `check_array(X)`, then one score per row
from the k-neighbor distances.  `neigh = none` models the unfitted detector. -/
noncomputable def empiricalAnomalyScoreM (k : ℕ) (p : ℝ) (neigh : Option Mat) (X : Mat) :
    Except KErr (List ℝ) :=
  match neigh with
  | none => .error .notFitted
  | some train =>
    match checkArray X with
    | .error e => .error e
    | .ok X₀ =>
      if train.length < k then .error .invalidInput
      else .ok (X₀.map (empiricalScoreRow k p train))

/-- `EmpiricalOutlierDetector.fit`: `check_array(X)`, build the `_neigh` index
on `X`, self-score the training rows, and set
`threshold_ = np.percentile(scores, 100 * (1 - fpr))`.
Note the `fpr` parameter is used without any validation. -/
noncomputable def empiricalFit (fpr : ℝ) (k : ℕ) (p : ℝ) (X : Mat) :
    Except KErr EmpiricalState :=
  match checkArray X with
  | .error e => .error e
  | .ok X₀ =>
    match empiricalAnomalyScoreM k p (some X₀) X₀ with
    | .error e => .error e
    | .ok scores => .ok ⟨X₀, npPercentile scores (100 * (1 - fpr))⟩

/-! ### The abstract detector lifecycle of `BaseOutlierDetector`

`base.py` leaves `_fit` and `_anomaly_score` abstract; a concrete subtype
supplies them.  `_fit` builds a model value (possibly failing), and
`_anomaly_score` scores a matrix against the model (possibly failing, e.g.
when the k-NN index is queried with more neighbors than stored samples). -/

/-- The subtype-specific hooks of a concrete `BaseOutlierDetector`. -/
structure SubtypeOps (M : Type) : Type where
  fitM : Mat → Except KErr M
  scoreM : M → Mat → Except KErr (List ℝ)

/-- The mutable attributes a `BaseOutlierDetector` instance carries: the
subtype model (e.g. `_neigh`), `anomaly_score_`, `threshold_`, and the fitted
`MinMaxScaler` `_scaler` (its `data_min_` and `data_max_`).  `none` models an
attribute not yet set. -/
structure DetectorState (M : Type) : Type where
  model : Option M
  anomaly_score_ : Option (List ℝ)
  threshold_ : Option ℝ
  scaler : Option (ℝ × ℝ)

/-- A freshly constructed detector: `__init__` stores only hyperparameters,
no fitted attribute exists. -/
def freshDetector (M : Type) : DetectorState M := ⟨none, none, none, none⟩

/-- `MinMaxScaler.transform` for a scaler fitted on data with minimum `mn` and
maximum `mx`: `(s - mn) / (mx - mn)`, where sklearn replaces a zero range by
`1` (`_handle_zeros_in_scale`). -/
noncomputable def minmaxTransform (mn mx s : ℝ) : ℝ :=
  (s - mn) / (if mx - mn = 0 then 1 else mx - mn)

/-- `BaseOutlierDetector.fit`, as a transition on the instance state.  Returns
the raised error (if any) together with the post-call state: Python mutates
`self` in place, so a failure after `self._fit(X)` has replaced the model
leaves the remaining attributes from the previous fit.  The steps, in source
order: `_check_params` (contamination in `[0, 0.5]`), `check_array`,
`self._fit(X)`, `self.anomaly_score_ = self._anomaly_score(X)`,
`self.threshold_ = np.percentile(self.anomaly_score_, 100*(1-contamination))`,
`self._scaler = MinMaxScaler().fit(self.anomaly_score_)`. -/
noncomputable def fitDet {M : Type} (ops : SubtypeOps M) (c : ℝ) (X : Mat)
    (s : DetectorState M) : Option KErr × DetectorState M :=
  if 0 ≤ c ∧ c ≤ 1 / 2 then
    match checkArray X with
    | .error e => (some e, s)
    | .ok X₀ =>
      match ops.fitM X₀ with
      | .error e => (some e, s)
      | .ok m =>
        let s₁ : DetectorState M := { s with model := some m }
        match ops.scoreM m X₀ with
        | .error e => (some e, s₁)
        | .ok scores =>
          (none, { model := some m
                   anomaly_score_ := some scores
                   threshold_ := some (npPercentile scores (100 * (1 - c)))
                   scaler := some (listMin scores, listMax scores) })
  else (some .invalidParameter, s)

/-- `BaseOutlierDetector.anomaly_score`: `check_is_fitted(self, '_scaler')`,
`check_array(X)`, subtype scoring, and optionally the min-max normalization. -/
noncomputable def anomalyScoreDet {M : Type} (ops : SubtypeOps M) (s : DetectorState M)
    (X : Mat) (normalize : Bool) : Except KErr (List ℝ) :=
  match s.scaler with
  | none => .error .notFitted
  | some (mn, mx) =>
    match checkArray X with
    | .error e => .error e
    | .ok X₀ =>
      match s.model with
      | none => .error .notFitted
      | some m =>
        match ops.scoreM m X₀ with
        | .error e => .error e
        | .ok sc => .ok (if normalize then sc.map (minmaxTransform mn mx) else sc)

/-- `BaseOutlierDetector.predict`: compute unnormalized scores, default the
threshold to `self.threshold_`, label by `np.where(score <= threshold, 1, -1)`. -/
noncomputable def predictDet {M : Type} (ops : SubtypeOps M) (s : DetectorState M)
    (X : Mat) (threshold : Option ℝ) : Except KErr (List ℤ) :=
  match anomalyScoreDet ops s X false with
  | .error e => .error e
  | .ok sc =>
    match (match threshold with | some t => some t | none => s.threshold_) with
    | none => .error .notFitted
    | some t => .ok (npWhereLe sc t)

/-- Modelled from the spec: `detect` is provided by `DetectorMixin` in
`kenchi/base.py`, which is not under `src/`; per spec sections 4.2 and 4.3 it
requires fitted state (a `NotFittedError` otherwise) and labels samples `0`
for inliers and `1` for outliers by the same threshold comparison as
`predict`. -/
noncomputable def detectDet {M : Type} (ops : SubtypeOps M) (s : DetectorState M)
    (X : Mat) : Except KErr (List ℤ) :=
  match anomalyScoreDet ops s X false with
  | .error e => .error e
  | .ok sc =>
    match s.threshold_ with
    | none => .error .notFitted
    | some t => .ok (sc.map (fun x => if x ≤ t then 0 else 1))

/-- `OutlierMixin.fit_predict`: `return self.fit(X).predict(X)`; an exception
raised by `fit` propagates. -/
noncomputable def fitPredictDet {M : Type} (ops : SubtypeOps M) (c : ℝ)
    (s : DetectorState M) (X : Mat) : Except KErr (List ℤ) :=
  match fitDet ops c X s with
  | (some e, _) => .error e
  | (none, s') => predictDet ops s' X none

/-- The subtype hooks of `EmpiricalOutlierDetector` plugged into the abstract
lifecycle: `_fit` stores the training rows in the k-NN index, `_anomaly_score`
returns the k-NN scores (failing when the index holds fewer than
`n_neighbors` rows, as the collaborator does). -/
noncomputable def empiricalOps (k : ℕ) (p : ℝ) : SubtypeOps Mat where
  fitM X := .ok X
  scoreM train X :=
    if train.length < k then .error .invalidInput
    else .ok (X.map (empiricalScoreRow k p train))

/-! ### The transform chain of `ExtendedPipeline`

Each non-fit operation of `pipeline.py` runs

    Xt = X
    for _, transform in self.steps[:-1]:
        if transform is not None:
            Xt = transform.transform(Xt)

and then delegates to the final estimator's same-named operation on `Xt`. -/

/-- A non-final pipeline step that is present: its `fit_transform` (used by the
`fit_*` variants) and `transform` behaviors. -/
structure PipeTransform : Type where
  fit_transform : Mat → Mat
  transform : Mat → Mat

/-- The identity transform: both behaviors leave the matrix unchanged. -/
def idTransform : PipeTransform := ⟨id, id⟩

/-- The non-final transform chain (transform-only): a `none` step — the
explicit no-op marker — is skipped rather than applied. -/
def applyTransforms (steps : List (Option PipeTransform)) (X : Mat) : Mat :=
  steps.foldl (fun Xt st => match st with | none => Xt | some tr => tr.transform Xt) X

/-- Modelled from the spec: the fit-side transform chain `Xt, _ = self._fit(X)`
used by the `fit_*` pipeline operations lives in `sklearn.pipeline.Pipeline`,
not under `src/`; per spec section 4.3 it runs each non-`None` transform's
fit-then-transform in sequence. -/
def applyFitTransforms (steps : List (Option PipeTransform)) (X : Mat) : Mat :=
  steps.foldl (fun Xt st => match st with | none => Xt | some tr => tr.fit_transform Xt) X

/-- `ExtendedPipeline.anomaly_score`: transform chain, then delegate to the
final estimator's `anomaly_score` on the transformed matrix. -/
def pipeAnomalyScore {α : Type} (steps : List (Option PipeTransform))
    (finalAnomalyScore : Mat → α) (X : Mat) : α :=
  finalAnomalyScore (applyTransforms steps X)

/-- `ExtendedPipeline.detect`: transform chain, then delegate to the final
estimator's `detect`. -/
def pipeDetect {α : Type} (steps : List (Option PipeTransform))
    (finalDetect : Mat → α) (X : Mat) : α :=
  finalDetect (applyTransforms steps X)

/-- Modelled from the spec: `ExtendedPipeline.fit_predict` delegates to
`sklearn.pipeline.Pipeline.fit_predict` (not under `src/`), which runs the
fit-side transform chain and calls the final estimator's `fit_predict` on the
transformed matrix — the same shape as the in-source `fit_detect` and
`fit_analyze`. -/
def pipeFitPredict {α : Type} (steps : List (Option PipeTransform))
    (finalFitPredict : Mat → α) (X : Mat) : α :=
  finalFitPredict (applyFitTransforms steps X)

theorem applyTransforms_none (steps : List (Option PipeTransform)) (X : Mat) :
    applyTransforms (none :: steps) X = applyTransforms steps X := rfl

theorem applyTransforms_some (tr : PipeTransform) (steps : List (Option PipeTransform))
    (X : Mat) :
    applyTransforms (some tr :: steps) X = applyTransforms steps (tr.transform X) := rfl

theorem applyTransforms_noop (steps : List (Option PipeTransform)) (X : Mat)
    (h : ∀ st ∈ steps, st = none ∨ st = some idTransform) :
    applyTransforms steps X = X := by
  induction steps generalizing X with
  | nil => rfl
  | cons st rest ih =>
    rcases h st (List.mem_cons_self st rest) with h₀ | h₀ <;> subst h₀
    · exact ih X (fun s hs => h s (List.mem_cons_of_mem _ hs))
    · exact ih X (fun s hs => h s (List.mem_cons_of_mem _ hs))

theorem applyFitTransforms_noop (steps : List (Option PipeTransform)) (X : Mat)
    (h : ∀ st ∈ steps, st = none ∨ st = some idTransform) :
    applyFitTransforms steps X = X := by
  induction steps generalizing X with
  | nil => rfl
  | cons st rest ih =>
    rcases h st (List.mem_cons_self st rest) with h₀ | h₀ <;> subst h₀
    · exact ih X (fun s hs => h s (List.mem_cons_of_mem _ hs))
    · exact ih X (fun s hs => h s (List.mem_cons_of_mem _ hs))

/-! ### Inversion of a successful `fit` -/

/-- Inverting a successful `BaseOutlierDetector.fit`: the contamination was
valid, the data check passed, the subtype steps succeeded, and the resulting
state holds exactly the model, the training scores, their
`100*(1-c)` percentile as threshold, and the min-max scaler bounds. -/
theorem fitDet_ok_inv {M : Type} (ops : SubtypeOps M) (c : ℝ) (X : Mat)
    (s s' : DetectorState M) (h : fitDet ops c X s = (none, s')) :
    (0 ≤ c ∧ c ≤ 1 / 2) ∧ checkArray X = .ok X ∧
      ∃ m scores, ops.fitM X = .ok m ∧ ops.scoreM m X = .ok scores ∧
        s' = ⟨some m, some scores, some (npPercentile scores (100 * (1 - c))),
              some (listMin scores, listMax scores)⟩ := by
  by_cases hc : 0 ≤ c ∧ c ≤ 1 / 2
  · rw [fitDet, if_pos hc] at h
    cases hX : checkArray X with
    | error e => rw [hX] at h; exact absurd h (by simp)
    | ok X₀ =>
      have hXX : X₀ = X := checkArray_ok_eq X X₀ hX
      subst hXX
      rw [hX] at h
      dsimp only at h
      cases hm : ops.fitM X₀ with
      | error e => rw [hm] at h; exact absurd h (by simp)
      | ok m =>
        rw [hm] at h
        dsimp only at h
        cases hsc : ops.scoreM m X₀ with
        | error e => rw [hsc] at h; exact absurd h (by simp)
        | ok scores =>
          rw [hsc] at h
          simp only [Prod.mk.injEq] at h
          exact ⟨hc, rfl, m, scores, rfl, hsc, h.2.symm⟩
  · rw [fitDet, if_neg hc] at h
    exact absurd h (by simp)

/-- The outcome of `fit` does not depend on the prior instance state: the
same error is raised, and on success the same state is produced, whatever was
fitted before. -/
theorem fitDet_state_indep {M : Type} (ops : SubtypeOps M) (c : ℝ) (X : Mat)
    (s s₂ : DetectorState M) :
    (fitDet ops c X s).1 = (fitDet ops c X s₂).1 ∧
      ((fitDet ops c X s).1 = none → (fitDet ops c X s).2 = (fitDet ops c X s₂).2) := by
  by_cases hc : 0 ≤ c ∧ c ≤ 1 / 2
  · rw [fitDet, fitDet, if_pos hc, if_pos hc]
    cases hX : checkArray X with
    | error e => simp
    | ok X₀ =>
      dsimp only
      cases hm : ops.fitM X₀ with
      | error e => simp
      | ok m =>
        dsimp only
        cases hsc : ops.scoreM m X₀ with
        | error e => simp
        | ok scores => simp
  · rw [fitDet, fitDet, if_neg hc, if_neg hc]
    simp

/-! ### Counting scores above the interpolated percentile -/

/-- If the first `k` elements of a list are at most `t` and the rest are
strictly above `t`, then exactly `length - k` elements exceed `t`. -/
theorem sorted_countP_gt (s : List ℝ) (t : ℝ) (k : ℕ) (hk : k ≤ s.length)
    (hlow : ∀ j (hj : j < s.length), j < k → s.get ⟨j, hj⟩ ≤ t)
    (hhigh : ∀ j (hj : j < s.length), k ≤ j → t < s.get ⟨j, hj⟩) :
    s.countP (fun x => decide (t < x)) = s.length - k := by
  conv_lhs => rw [← List.take_append_drop k s]
  rw [List.countP_append]
  have h1 : (s.take k).countP (fun x => decide (t < x)) = 0 := by
    rw [List.countP_eq_zero]
    intro a ha
    rcases List.mem_iff_get.1 ha with ⟨⟨i, hi⟩, rfl⟩
    have hik : i < k := lt_of_lt_of_le hi (by simp [List.length_take])
    have hin : i < s.length := lt_of_lt_of_le hik hk
    have hget : (s.take k).get ⟨i, hi⟩ = s.get ⟨i, hin⟩ := by simp [List.get_take]
    rw [hget]
    simp only [decide_eq_true_eq, not_lt]
    exact hlow i hin hik
  have h2 : (s.drop k).countP (fun x => decide (t < x)) = (s.drop k).length := by
    rw [List.countP_eq_length]
    intro a ha
    rcases List.mem_iff_get.1 ha with ⟨⟨i, hi⟩, rfl⟩
    have hin : k + i < s.length := by simp [List.length_drop] at hi; omega
    have hget : (s.drop k).get ⟨i, hi⟩ = s.get ⟨k + i, hin⟩ := by simp [List.get_drop]
    rw [hget]
    simp only [decide_eq_true_eq]
    exact hhigh (k + i) hin (Nat.le_add_right k i)
  rw [h1, h2, List.length_drop]
  omega

/-- Unfolding `npPercentile`. -/
theorem npPercentile_eq (l : List ℝ) (q : ℝ) :
    npPercentile l q
      = (sortR l).getD ⌊q / 100 * ((l.length : ℝ) - 1)⌋₊ 0
        + (q / 100 * ((l.length : ℝ) - 1) - ((⌊q / 100 * ((l.length : ℝ) - 1)⌋₊ : ℕ) : ℝ))
          * ((sortR l).getD (⌊q / 100 * ((l.length : ℝ) - 1)⌋₊ + 1)
               ((sortR l).getD ⌊q / 100 * ((l.length : ℝ) - 1)⌋₊ 0)
             - (sortR l).getD ⌊q / 100 * ((l.length : ℝ) - 1)⌋₊ 0) := rfl

/-- The percentile-threshold counting property: on pairwise-distinct data, the
fraction of entries strictly above the interpolated `100*(1-c)` percentile is
within `1/n` of `c`. -/
theorem percentile_count_within (l : List ℝ) (c : ℝ) (hne : l ≠ []) (hnd : l.Nodup)
    (hc0 : 0 ≤ c) (hc1 : c ≤ 1) :
    |((l.countP (fun x => decide (npPercentile l (100 * (1 - c)) < x)) : ℝ) / (l.length : ℝ)) - c|
      ≤ 1 / (l.length : ℝ) := by
  have hn : 1 ≤ l.length := List.length_pos.2 hne
  set n : ℕ := l.length with hn_def
  have hn1 : (1 : ℝ) ≤ (n : ℝ) := by exact_mod_cast hn
  have hn0 : (0 : ℝ) < (n : ℝ) := lt_of_lt_of_le one_pos hn1
  set s : List ℝ := sortR l with hs_def
  have hs_len : s.length = n := sortR_length l
  have hs_sorted : s.Sorted (· ≤ ·) := sortR_sorted l
  have hs_nodup : s.Nodup := sortR_nodup l hnd
  have hstrict : ∀ (a b : Fin s.length), a < b → s.get a < s.get b := by
    intro a b hab
    have h₁ := (List.pairwise_iff_get.1 hs_sorted) a b hab
    have h₂ := (List.pairwise_iff_get.1 hs_nodup) a b hab
    exact lt_of_le_of_ne h₁ h₂
  set H : ℝ := (100 * (1 - c)) / 100 * ((n : ℝ) - 1) with hH_def
  have hH_eq : H = (1 - c) * ((n : ℝ) - 1) := by rw [hH_def]; ring
  have hH0 : 0 ≤ H := by
    rw [hH_eq]
    exact mul_nonneg (by linarith) (by linarith)
  have hH_le : H ≤ (n : ℝ) - 1 := by
    rw [hH_eq]
    nlinarith
  set i : ℕ := ⌊H⌋₊ with hi_def
  have hi_le_H : (i : ℝ) ≤ H := Nat.floor_le hH0
  have hH_lt : H < (i : ℝ) + 1 := Nat.lt_floor_add_one H
  have hi_lt_n : i < n := by
    have : (i : ℝ) < (n : ℝ) := lt_of_le_of_lt hi_le_H (lt_of_le_of_lt hH_le (by linarith))
    exact_mod_cast this
  have hi_lt_len : i < s.length := by rw [hs_len]; exact hi_lt_n
  set lo : ℝ := s.getD i 0 with hlo_def
  have hlo_get : lo = s.get ⟨i, hi_lt_len⟩ := by
    rw [hlo_def, List.getD_eq_getElem s 0 hi_lt_len]
    simp
  set hi' : ℝ := s.getD (i + 1) lo with hhi_def
  set t : ℝ := npPercentile l (100 * (1 - c)) with ht_def
  have ht_eq : t = lo + (H - (i : ℝ)) * (hi' - lo) := npPercentile_eq l (100 * (1 - c))
  -- `lo ≤ t`, and `t < s.get (i+1)` when `i+1` is in range
  have hbracket : lo ≤ t ∧ ∀ (h1 : i + 1 < s.length), t < s.get ⟨i + 1, h1⟩ := by
    by_cases hrange : i + 1 < s.length
    · have hget : hi' = s.get ⟨i + 1, hrange⟩ := by
        rw [hhi_def, List.getD_eq_getElem s lo hrange]
        simp
      have hlt : lo < hi' := by
        rw [hlo_get, hget]
        exact hstrict _ _ (by simp)
      constructor
      · rw [ht_eq]
        nlinarith
      · intro h1
        rw [← hget, ht_eq]
        nlinarith
    · have hget : hi' = lo := by
        rw [hhi_def]
        exact List.getD_eq_default s lo (by omega)
      constructor
      · rw [ht_eq, hget]
        nlinarith
      · intro h1
        exact absurd h1 hrange
  -- count over the sorted list
  have hcount_s : s.countP (fun x => decide (t < x)) = s.length - (i + 1) := by
    refine sorted_countP_gt s t (i + 1) (by omega) ?_ ?_
    · intro j hj hjk
      have hj_le : s.get ⟨j, hj⟩ ≤ lo := by
        rcases Nat.lt_succ_iff_lt_or_eq.1 hjk with hji | hji
        · rw [hlo_get]
          exact le_of_lt (hstrict _ _ (by simpa using hji))
        · rw [hlo_get]
          exact le_of_eq (by congr)
      exact le_trans hj_le hbracket.1
    · intro j hj hjk
      have hrange : i + 1 < s.length := lt_of_le_of_lt hjk hj
      have ht_lt : t < s.get ⟨i + 1, hrange⟩ := hbracket.2 hrange
      rcases Nat.lt_or_ge (i + 1) j with hji | hji
      · exact lt_of_lt_of_le ht_lt (le_of_lt (hstrict _ _ (by simpa using hji)))
      · have : j = i + 1 := le_antisymm hji hjk
        subst this
        exact ht_lt
  -- transfer to the unsorted list
  have hcount_l : l.countP (fun x => decide (t < x)) = n - (i + 1) := by
    rw [← (sortR_perm l).countP_eq, hcount_s, hs_len]
  -- arithmetic
  rw [ht_def] at hcount_l
  rw [hcount_l]
  have hcast : ((n - (i + 1) : ℕ) : ℝ) = (n : ℝ) - (i : ℝ) - 1 := by
    have : i + 1 ≤ n := by omega
    push_cast [Nat.cast_sub this]
    ring
  rw [hcast]
  have hexp : (1 - c) * ((n : ℝ) - 1) = (n : ℝ) - 1 - c * (n : ℝ) + c := by ring
  have key1 : (n : ℝ) - (i : ℝ) - 1 - c * (n : ℝ) ≤ 1 := by
    rw [hH_eq, hexp] at hH_lt
    linarith
  have key2 : -1 ≤ (n : ℝ) - (i : ℝ) - 1 - c * (n : ℝ) := by
    rw [hH_eq, hexp] at hi_le_H
    linarith
  have hdiv : ((n : ℝ) - (i : ℝ) - 1) / (n : ℝ) - c
      = ((n : ℝ) - (i : ℝ) - 1 - c * (n : ℝ)) / (n : ℝ) := by
    field_simp
    ring
  rw [hdiv, abs_div, abs_of_pos hn0]
  gcongr
  exact abs_le.2 ⟨key2, key1⟩

/-! ### Scoring and predicting on a fitted state -/

theorem anomalyScoreDet_fitted {M : Type} (ops : SubtypeOps M) (s : DetectorState M)
    (mn mx : ℝ) (m : M) (X : Mat) (scores : List ℝ) (b : Bool)
    (h1 : s.scaler = some (mn, mx)) (h2 : s.model = some m)
    (hX : checkArray X = .ok X) (hsc : ops.scoreM m X = .ok scores) :
    anomalyScoreDet ops s X b
      = .ok (if b then scores.map (minmaxTransform mn mx) else scores) := by
  rw [anomalyScoreDet, h1]
  dsimp only
  rw [hX]
  dsimp only
  rw [h2]
  dsimp only
  rw [hsc]

theorem predictDet_fitted {M : Type} (ops : SubtypeOps M) (s : DetectorState M)
    (mn mx : ℝ) (m : M) (t : ℝ) (X : Mat) (scores : List ℝ) (tOpt : Option ℝ)
    (h1 : s.scaler = some (mn, mx)) (h2 : s.model = some m)
    (hX : checkArray X = .ok X) (hsc : ops.scoreM m X = .ok scores)
    (ht : (match tOpt with | some u => some u | none => s.threshold_) = some t) :
    predictDet ops s X tOpt = .ok (npWhereLe scores t) := by
  unfold predictDet
  rw [anomalyScoreDet_fitted ops s mn mx m X scores false h1 h2 hX hsc]
  dsimp only
  rw [ht]
  simp

/-! ### Concrete evaluations

The one-dimensional training set `{0, 2}` with `n_neighbors = 2` and the
Minkowski power `p = 1`.  Both training rows are at distance `2` from their
farthest retained neighbor, so both training scores are
`-log 2 + 1 * log 2 = 0` — a concrete detector with tied training scores. -/

theorem minkowski_one_dim (a b : ℝ) : minkowski 1 [a] [b] = |a - b| := by
  simp [minkowski, Real.rpow_one]

theorem empScore_X2_0 : empiricalScoreRow 2 1 [[0], [2]] [(0 : ℝ)] = 0 := by
  have hd : kneighborsDists [[0], [2]] 2 1 [(0 : ℝ)] = [0, 2] := by
    rw [kneighborsDists]
    norm_num [minkowski_one_dim, sortR, insortR]
  rw [empiricalScoreRow, hd]
  have hr : radiusOf [(0 : ℝ), 2] = 2 := by
    norm_num [radiusOf, listMax, max_def]
  rw [hr]
  norm_num

theorem empScore_X2_2 : empiricalScoreRow 2 1 [[0], [2]] [(2 : ℝ)] = 0 := by
  have hd : kneighborsDists [[0], [2]] 2 1 [(2 : ℝ)] = [0, 2] := by
    rw [kneighborsDists]
    norm_num [minkowski_one_dim, sortR, insortR]
  rw [empiricalScoreRow, hd]
  have hr : radiusOf [(0 : ℝ), 2] = 2 := by
    norm_num [radiusOf, listMax, max_def]
  rw [hr]
  norm_num

theorem checkArray_X2 : checkArray [[0], [2]] = .ok [[(0 : ℝ)], [2]] := by
  rw [checkArray, if_pos]
  simp

theorem npPercentile_pair_zero (q : ℝ) (h1 : q / 100 < 1) :
    npPercentile [(0 : ℝ), 0] q = 0 := by
  rw [npPercentile_eq]
  have hs : sortR [(0 : ℝ), 0] = [0, 0] := by norm_num [sortR, insortR]
  have harg : q / 100 * (([(0 : ℝ), 0].length : ℝ) - 1) = q / 100 := by
    norm_num
  rw [hs, harg]
  have hfloor : ⌊q / 100⌋₊ = 0 := Nat.floor_eq_zero.2 h1
  rw [hfloor]
  norm_num

/-- The fitted state after `fit` on the training set `{0, 2}` with
contamination `1/2`: tied training scores `[0, 0]`, threshold `0`, degenerate
scaler bounds `(0, 0)`. -/
theorem fit_X2_eval :
    fitDet (empiricalOps 2 1) (1 / 2) [[0], [2]] (freshDetector Mat)
      = (none, ⟨some [[0], [2]], some [0, 0], some 0, some (0, 0)⟩) := by
  rw [fitDet, if_pos (by norm_num)]
  rw [checkArray_X2]
  dsimp only [empiricalOps]
  rw [if_neg (by norm_num)]
  have hmap : ([[0], [2]] : Mat).map (empiricalScoreRow 2 1 [[0], [2]]) = [0, 0] := by
    simp [empScore_X2_0, empScore_X2_2]
  rw [hmap]
  dsimp only
  have hper : npPercentile [(0 : ℝ), 0] (100 * (1 - 1 / 2)) = 0 :=
    npPercentile_pair_zero _ (by norm_num)
  have hmin : listMin [(0 : ℝ), 0] = 0 := by norm_num [listMin, min_def]
  have hmax : listMax [(0 : ℝ), 0] = 0 := by norm_num [listMax, max_def]
  rw [hper, hmin, hmax]

/-- The subtype scoring hook evaluated on the `{0, 2}` training set. -/
theorem empOps_scoreM_X2 :
    (empiricalOps 2 1).scoreM [[0], [2]] [[0], [2]] = .ok [0, 0] := by
  dsimp only [empiricalOps]
  rw [if_neg (by norm_num)]
  simp [empScore_X2_0, empScore_X2_2]

theorem radiusOf_replicate_zero (m : ℕ) : radiusOf (List.replicate m (0 : ℝ)) = 0 := by
  have haux : ∀ j : ℕ, (List.replicate j (0 : ℝ)).foldr max 0 = 0 := by
    intro j
    induction j with
    | zero => simp
    | succ j ih => simp [List.replicate_succ, ih]
  cases m with
  | zero => simp [radiusOf, listMax]
  | succ m => simp [radiusOf, listMax, List.replicate_succ, haux]

/-! ### Claims -/

/-- Claim C1: for a fitted detector with `k = n_neighbors` and a query sample
with `n_features` features, the raw anomaly score equals
`n_features * log(radius) - log(k)`, where `radius` is the maximum of the
sample's k nearest-neighbor distances. -/
theorem anomaly_score_is_log_density (k nf : ℕ) (dist : List ℝ) (hk : 0 < k)
    (hr : 0 < radiusOf dist) :
    anomalyScoreRow k nf dist
      = (((nf : ℝ) * Real.log (radiusOf dist) - Real.log (k : ℝ) : ℝ) : EReal) := by
  rw [score_models_agree k nf dist (Nat.cast_ne_zero.2 hk.ne') (ne_of_gt hr)]
  exact congrArg (fun x : ℝ => (x : EReal)) (by ring)

/-- Claim C1 witness: with `n_neighbors = 1`, `n_features = 1` and nearest
neighbor at distance `e`, the raw score is `1`. -/
theorem anomaly_score_is_log_density_witness :
    0 < radiusOf [Real.exp 1] ∧
      anomalyScoreRow 1 1 [Real.exp 1] = ((1 : ℝ) : EReal) := by
  have hr : radiusOf [Real.exp 1] = Real.exp 1 := by
    simp [radiusOf, listMax]
  have hpos : 0 < radiusOf [Real.exp 1] := by rw [hr]; exact Real.exp_pos 1
  refine ⟨hpos, ?_⟩
  rw [anomaly_score_is_log_density 1 1 [Real.exp 1] one_pos hpos, hr]
  exact congrArg (fun x : ℝ => (x : EReal)) (by norm_num [Real.log_exp, Real.log_one])

/-- Claim C9: a query sample whose k nearest-neighbor distances are all zero
has raw score `-inf`, and the predict comparison labels it `+1` (inlier) at
every threshold. -/
theorem zero_radius_score_bot (k nf m : ℕ) (hk : 0 < k) (hnf : 0 < nf) (hm : 0 < m) :
    anomalyScoreRow k nf (List.replicate m 0) = ⊥ ∧
      ∀ t : EReal, npWhereLe [anomalyScoreRow k nf (List.replicate m 0)] t = [1] := by
  have hscore : anomalyScoreRow k nf (List.replicate m 0) = ⊥ := by
    rw [anomalyScoreRow, radiusOf_replicate_zero]
    have h0 : npLog 0 = ⊥ := by rw [npLog]; exact if_pos rfl
    rw [h0]
    have hmul : ((nf : ℝ) : EReal) * (⊥ : EReal) = ⊥ :=
      EReal.mul_bot_of_pos (by exact_mod_cast hnf)
    rw [hmul, EReal.add_bot]
  refine ⟨hscore, fun t => ?_⟩
  rw [hscore]
  simp [npWhereLe, bot_le]

/-- Claim C9 witness: five zero distances with `k = 5`, `n_features = 1`,
threshold `-3`. -/
theorem zero_radius_score_bot_witness :
    0 < 5 ∧ 0 < 1 ∧
      anomalyScoreRow 5 1 (List.replicate 5 0) = ⊥ ∧
      npWhereLe [anomalyScoreRow 5 1 (List.replicate 5 0)] (((-3 : ℝ)) : EReal) = [1] :=
  ⟨by norm_num, by norm_num,
    (zero_radius_score_bot 5 1 5 (by norm_num) (by norm_num) (by norm_num)).1,
    (zero_radius_score_bot 5 1 5 (by norm_num) (by norm_num) (by norm_num)).2
      (((-3 : ℝ)) : EReal)⟩

/-- Claim C6: on a freshly constructed (never fitted) detector, every scoring
or prediction operation — `anomaly_score`, `predict`, `detect`, and the
empirical detector's `anomaly_score` — fails with the `NotFittedError` kind. -/
theorem unfit_operations_not_fitted {M : Type} (ops : SubtypeOps M) (X : Mat) (b : Bool)
    (tOpt : Option ℝ) (k : ℕ) (p : ℝ) :
    anomalyScoreDet ops (freshDetector M) X b = .error .notFitted ∧
      predictDet ops (freshDetector M) X tOpt = .error .notFitted ∧
      detectDet ops (freshDetector M) X = .error .notFitted ∧
      empiricalAnomalyScoreM k p none X = .error .notFitted :=
  ⟨rfl, rfl, rfl, rfl⟩

/-- Claim C4 counterexample: `EmpiricalOutlierDetector.fit` performs no
validation of the `fpr` parameter — with `fpr = 3/5 = 0.6` on the matrix
`[[0], [2]]` it completes successfully instead of raising
`InvalidParameter`. -/
theorem empirical_fit_accepts_bad_fpr :
    empiricalFit (3 / 5) 2 1 [[0], [2]] = .ok ⟨[[0], [2]], 0⟩ := by
  rw [empiricalFit, checkArray_X2]
  dsimp only
  rw [empiricalAnomalyScoreM, checkArray_X2]
  dsimp only
  rw [if_neg (by norm_num)]
  have hmap : ([[0], [2]] : Mat).map (empiricalScoreRow 2 1 [[0], [2]]) = [0, 0] := by
    simp [empScore_X2_0, empScore_X2_2]
  rw [hmap]
  dsimp only
  rw [npPercentile_pair_zero _ (by norm_num)]

/-- Claim C4 (amended): for detectors built on `BaseOutlierDetector`, a
contamination outside `[0, 0.5]` makes `fit` fail with `InvalidParameter`
immediately: the prior state is returned untouched, and the outcome is
independent of the data and of the subtype hooks (so the training matrix is
never touched and the index builder is never invoked). -/
theorem fit_rejects_invalid_contamination {M : Type} (ops ops' : SubtypeOps M) (c : ℝ)
    (X X' : Mat) (s : DetectorState M) (hc : ¬ (0 ≤ c ∧ c ≤ 1 / 2)) :
    fitDet ops c X s = (some .invalidParameter, s) ∧
      fitDet ops c X s = fitDet ops' c X' s := by
  rw [fitDet, if_neg hc, fitDet, if_neg hc]
  exact ⟨rfl, rfl⟩

/-- Claim C4 witness: contamination `3/5` is rejected identically whatever the
data or subtype hooks. -/
theorem fit_rejects_invalid_contamination_witness :
    ¬ ((0 : ℝ) ≤ 3 / 5 ∧ (3 / 5 : ℝ) ≤ 1 / 2) ∧
      fitDet (empiricalOps 2 1) (3 / 5) [[0], [2]] (freshDetector Mat)
        = (some .invalidParameter, freshDetector Mat) ∧
      fitDet (empiricalOps 2 1) (3 / 5) [[0], [2]] (freshDetector Mat)
        = fitDet (empiricalOps 1 1) (3 / 5) [] (freshDetector Mat) :=
  ⟨by norm_num,
    (fit_rejects_invalid_contamination (empiricalOps 2 1) (empiricalOps 1 1) (3 / 5)
      [[0], [2]] [] (freshDetector Mat) (by norm_num)).1,
    (fit_rejects_invalid_contamination (empiricalOps 2 1) (empiricalOps 1 1) (3 / 5)
      [[0], [2]] [] (freshDetector Mat) (by norm_num)).2⟩

/-- Claim C7 (amended): a `fit` call that fails during parameter validation,
data validation, or the model-building step leaves the previously fitted
state exactly as it was. (A failure in the later self-scoring step does not —
see the counterexample.) -/
theorem fit_early_failure_preserves_state {M : Type} (ops : SubtypeOps M) (c : ℝ)
    (X : Mat) (s : DetectorState M)
    (h : ¬ (0 ≤ c ∧ c ≤ 1 / 2) ∨ checkArray X = .error .invalidInput ∨
         (checkArray X = .ok X ∧ ∃ e, ops.fitM X = .error e)) :
    (fitDet ops c X s).2 = s ∧ (fitDet ops c X s).1 ≠ none := by
  rcases h with h | h | ⟨hX, e, hm⟩
  · rw [fitDet, if_neg h]
    exact ⟨rfl, by simp⟩
  · by_cases hc : 0 ≤ c ∧ c ≤ 1 / 2
    · rw [fitDet, if_pos hc, h]
      exact ⟨rfl, by simp⟩
    · rw [fitDet, if_neg hc]
      exact ⟨rfl, by simp⟩
  · by_cases hc : 0 ≤ c ∧ c ≤ 1 / 2
    · rw [fitDet, if_pos hc, hX]
      dsimp only
      rw [hm]
      exact ⟨rfl, by simp⟩
    · rw [fitDet, if_neg hc]
      exact ⟨rfl, by simp⟩

/-- Claim C7 witness: the invalid-parameter failure path at contamination
`3/5` leaves the fresh state untouched. -/
theorem fit_early_failure_preserves_state_witness :
    (fitDet (empiricalOps 2 1) (3 / 5) [[0], [2]] (freshDetector Mat)).2 = freshDetector Mat ∧
      (fitDet (empiricalOps 2 1) (3 / 5) [[0], [2]] (freshDetector Mat)).1 ≠ none :=
  fit_early_failure_preserves_state (empiricalOps 2 1) (3 / 5) [[0], [2]]
    (freshDetector Mat) (Or.inl (by norm_num))

/-- Claim C7 counterexample: refit an already-fitted detector on a matrix
with fewer rows than `n_neighbors`.  The k-NN query fails after the model has
already been replaced, so the failed `fit` leaves a partially-updated state:
the model holds the new single-row training set while `anomaly_score_`,
`threshold_` and the scaler still hold the values of the previous fit. -/
theorem fit_late_failure_partial_state :
    fitDet (empiricalOps 2 1) (1 / 2) [[0], [2]] (freshDetector Mat)
        = (none, ⟨some [[0], [2]], some [0, 0], some 0, some (0, 0)⟩) ∧
      fitDet (empiricalOps 2 1) (1 / 2) [[0]]
          (⟨some [[0], [2]], some [0, 0], some 0, some (0, 0)⟩ : DetectorState Mat)
        = (some .invalidInput, ⟨some [[0]], some [0, 0], some 0, some (0, 0)⟩) ∧
      (some [[(0 : ℝ)]] : Option Mat) ≠ some [[0], [2]] := by
  refine ⟨fit_X2_eval, ?_, by simp⟩
  rw [fitDet, if_pos (by norm_num)]
  have hX1 : checkArray [[0]] = .ok [[(0 : ℝ)]] := by
    rw [checkArray, if_pos]
    simp
  rw [hX1]
  dsimp only [empiricalOps]
  rw [if_pos (by norm_num)]

/-- Claim C5: `fit_predict(X)` is exactly `fit(X)` followed by `predict(X)`
with no explicit threshold, and its outcome ignores whatever state (including
any previously fitted threshold) the detector carried before. -/
theorem fit_predict_is_fit_then_predict {M : Type} (ops : SubtypeOps M) (c : ℝ)
    (X : Mat) (s s₂ s' : DetectorState M) (hfit : fitDet ops c X s = (none, s')) :
    fitPredictDet ops c s X = predictDet ops s' X none ∧
      fitPredictDet ops c s X = fitPredictDet ops c s₂ X := by
  constructor
  · rw [fitPredictDet, hfit]
  · have h := fitDet_state_indep ops c X s s₂
    have h1 : (fitDet ops c X s₂).1 = none := by rw [← h.1, hfit]
    have h2 : (fitDet ops c X s₂).2 = s' := by
      rw [← h.2 (by rw [hfit]), hfit]
    rw [fitPredictDet, fitPredictDet, hfit]
    rcases hq : fitDet ops c X s₂ with ⟨e₂, st₂⟩
    rw [hq] at h1 h2
    dsimp only at h1 h2
    subst h1
    subst h2
    rfl

/-- Claim C5 witness: on the `{0, 2}` training set, `fit_predict` from the
fresh state equals `predict` on the freshly fitted state, and equals
`fit_predict` from an unrelated pre-fitted state. -/
theorem fit_predict_is_fit_then_predict_witness :
    fitPredictDet (empiricalOps 2 1) (1 / 2) (freshDetector Mat) [[0], [2]]
        = predictDet (empiricalOps 2 1)
            (⟨some [[0], [2]], some [0, 0], some 0, some (0, 0)⟩ : DetectorState Mat)
            [[0], [2]] none ∧
      fitPredictDet (empiricalOps 2 1) (1 / 2) (freshDetector Mat) [[0], [2]]
        = fitPredictDet (empiricalOps 2 1) (1 / 2)
            (⟨some [], some [1], some 5, some (1, 2)⟩ : DetectorState Mat) [[0], [2]] :=
  fit_predict_is_fit_then_predict (empiricalOps 2 1) (1 / 2) [[0], [2]]
    (freshDetector Mat) ⟨some [], some [1], some 5, some (1, 2)⟩ _ fit_X2_eval

/-- Claim C3: `predict` labels each row `+1` exactly when its unnormalized
anomaly score is at most the threshold (the fitted `threshold_` when the
caller supplies none) and `-1` exactly when the score strictly exceeds it. -/
theorem predict_is_inclusive_thresholding {M : Type} (ops : SubtypeOps M)
    (s : DetectorState M) (mn mx : ℝ) (m : M) (X : Mat) (scores : List ℝ)
    (tOpt : Option ℝ) (t : ℝ)
    (h1 : s.scaler = some (mn, mx)) (h2 : s.model = some m)
    (hX : checkArray X = .ok X) (hsc : ops.scoreM m X = .ok scores)
    (ht : (match tOpt with | some u => some u | none => s.threshold_) = some t) :
    predictDet ops s X tOpt = .ok (npWhereLe scores t) ∧
      ∀ i : ℕ,
        ((npWhereLe scores t).get? i = some 1
            ↔ ∃ sv, scores.get? i = some sv ∧ sv ≤ t) ∧
        ((npWhereLe scores t).get? i = some (-1)
            ↔ ∃ sv, scores.get? i = some sv ∧ t < sv) := by
  refine ⟨predictDet_fitted ops s mn mx m t X scores tOpt h1 h2 hX hsc ht, fun i => ?_⟩
  rw [npWhereLe, List.get?_map]
  cases hgi : scores.get? i with
  | none => simp
  | some sv =>
    by_cases hle : sv ≤ t
    · constructor
      · simp [hle]
      · simp [hle, not_lt.2 hle]
    · constructor
      · simp [hle]
      · simp [hle, not_le.1 hle]

/-- Claim C3 witness: on the fitted `{0, 2}` detector with default threshold
`0`, the first row scores `0 ≤ 0` and is labelled `+1`. -/
theorem predict_is_inclusive_thresholding_witness :
    predictDet (empiricalOps 2 1)
        (⟨some [[0], [2]], some [0, 0], some 0, some (0, 0)⟩ : DetectorState Mat)
        [[0], [2]] none
      = .ok (npWhereLe [(0 : ℝ), 0] 0) ∧
      (npWhereLe [(0 : ℝ), 0] 0).get? 0 = some 1 := by
  have h := predict_is_inclusive_thresholding (empiricalOps 2 1)
    ⟨some [[0], [2]], some [0, 0], some 0, some (0, 0)⟩ 0 0 [[0], [2]] [[0], [2]]
    [0, 0] none 0 rfl rfl checkArray_X2 empOps_scoreM_X2 rfl
  exact ⟨h.1, ((h.2 0).1).2 ⟨0, rfl, le_refl 0⟩⟩

/-- Claim C10: a pipeline whose non-final steps are absent (`None`) or the
identity transform delegates `fit_predict` to the final detector on the
unchanged matrix, so `pipeline.fit_predict(X) = D.fit_predict(X)`; in
general each non-fit operation applies the non-`None` transforms in order and
delegates the same-named operation of the final estimator. -/
theorem pipeline_noop_transparent {M : Type} (ops : SubtypeOps M) (c : ℝ)
    (s : DetectorState M) (steps : List (Option PipeTransform)) (X : Mat)
    (g : Mat → Except KErr (List ℝ)) (d : Mat → Except KErr (List ℤ))
    (hnoop : ∀ st ∈ steps, st = none ∨ st = some idTransform) :
    pipeFitPredict steps (fitPredictDet ops c s) X = fitPredictDet ops c s X ∧
      pipeAnomalyScore steps g X = g (applyTransforms steps X) ∧
      pipeAnomalyScore steps g X = g X ∧
      pipeDetect steps d X = d (applyTransforms steps X) ∧
      pipeDetect steps d X = d X := by
  refine ⟨?_, rfl, ?_, rfl, ?_⟩
  · rw [pipeFitPredict, applyFitTransforms_noop steps X hnoop]
  · rw [pipeAnomalyScore, applyTransforms_noop steps X hnoop]
  · rw [pipeDetect, applyTransforms_noop steps X hnoop]

/-- Claim C10 witness: the two-step chain `[None, identity]` in front of the
empirical detector changes nothing. -/
theorem pipeline_noop_transparent_witness :
    pipeFitPredict [none, some idTransform]
        (fitPredictDet (empiricalOps 2 1) (1 / 2) (freshDetector Mat)) [[0], [2]]
      = fitPredictDet (empiricalOps 2 1) (1 / 2) (freshDetector Mat) [[0], [2]] ∧
      pipeAnomalyScore [none, some idTransform]
          (fun Xt => anomalyScoreDet (empiricalOps 2 1) (freshDetector Mat) Xt false)
          [[0], [2]]
        = anomalyScoreDet (empiricalOps 2 1) (freshDetector Mat) [[0], [2]] false := by
  have h := pipeline_noop_transparent (empiricalOps 2 1) (1 / 2) (freshDetector Mat)
    [none, some idTransform] [[0], [2]]
    (fun Xt => anomalyScoreDet (empiricalOps 2 1) (freshDetector Mat) Xt false)
    (fun Xt => detectDet (empiricalOps 2 1) (freshDetector Mat) Xt)
    (by intro st hst; simpa using hst)
  exact ⟨h.1, h.2.2.1⟩

/-- Claim C2 (amended): the fitted default threshold is the `100*(1-c)`
linear-interpolation percentile of the training anomaly scores, and — when
the training scores are pairwise distinct — the fraction of training samples
flagged outlier by `predict` at the default threshold is within one sample of
`c`. -/
theorem threshold_percentile_fraction {M : Type} (ops : SubtypeOps M) (c : ℝ)
    (X : Mat) (s s' : DetectorState M) (scores : List ℝ)
    (hfit : fitDet ops c X s = (none, s'))
    (hsc : s'.anomaly_score_ = some scores)
    (hne : scores ≠ []) (hnd : scores.Nodup) :
    s'.threshold_ = some (npPercentile scores (100 * (1 - c))) ∧
      predictDet ops s' X none
        = .ok (npWhereLe scores (npPercentile scores (100 * (1 - c)))) ∧
      |(((npWhereLe scores (npPercentile scores (100 * (1 - c)))).count (-1) : ℝ)
          / (scores.length : ℝ)) - c| ≤ 1 / (scores.length : ℝ) := by
  obtain ⟨hc, hX, m, scores₀, hm, hsc₀, hstate⟩ := fitDet_ok_inv ops c X s s' hfit
  have hseq : scores₀ = scores := by
    rw [hstate] at hsc
    simpa using hsc
  subst hseq
  refine ⟨by rw [hstate], ?_, ?_⟩
  · refine predictDet_fitted ops s' (listMin scores₀) (listMax scores₀) m
      (npPercentile scores₀ (100 * (1 - c))) X scores₀ none ?_ ?_ hX hsc₀ ?_
    · rw [hstate]
    · rw [hstate]
    · rw [hstate]
  · rw [count_npWhereLe_neg]
    exact percentile_count_within scores₀ c hne hnd hc.1 (le_trans hc.2 (by norm_num))

/-! ### Min-max normalization facts -/

theorem minmax_unit_interval (mn mx v : ℝ) (hlt : mn < mx) (h1 : mn ≤ v) (h2 : v ≤ mx) :
    0 ≤ minmaxTransform mn mx v ∧ minmaxTransform mn mx v ≤ 1 := by
  have hne : mx - mn ≠ 0 := sub_ne_zero.2 (ne_of_gt hlt)
  rw [minmaxTransform, if_neg hne]
  constructor
  · exact div_nonneg (by linarith) (by linarith)
  · rw [div_le_one (by linarith)]
    linarith

theorem minmax_at_min (mn mx : ℝ) : minmaxTransform mn mx mn = 0 := by
  rw [minmaxTransform]
  simp

theorem minmax_at_max (mn mx : ℝ) (hlt : mn < mx) : minmaxTransform mn mx mx = 1 := by
  have hne : mx - mn ≠ 0 := sub_ne_zero.2 (ne_of_gt hlt)
  rw [minmaxTransform, if_neg hne]
  exact div_self hne

theorem listMin_eq_of (l : List ℝ) (a : ℝ) (ha : a ∈ l) (hb : ∀ x ∈ l, a ≤ x) :
    listMin l = a := by
  have hne : l ≠ [] := by
    intro h
    subst h
    simp at ha
  refine le_antisymm (listMin_le l a ha) ?_
  rw [listMin]
  exact (le_foldr_min_iff _ _ _).2 ⟨hb _ (headD_mem l hne), hb⟩

theorem listMax_eq_of (l : List ℝ) (a : ℝ) (ha : a ∈ l) (hb : ∀ x ∈ l, x ≤ a) :
    listMax l = a := by
  have hne : l ≠ [] := by
    intro h
    subst h
    simp at ha
  refine le_antisymm ?_ (le_listMax l a ha)
  rw [listMax]
  exact (foldr_max_le_iff _ _ _).2 ⟨hb _ (headD_mem l hne), hb⟩

/-- Inverting a successful raw `anomaly_score` call on a fitted state. -/
theorem anomalyScoreDet_ok_inv {M : Type} (ops : SubtypeOps M) (s : DetectorState M)
    (mn mx : ℝ) (m : M) (X : Mat) (sc : List ℝ)
    (h1 : s.scaler = some (mn, mx)) (h2 : s.model = some m)
    (h : anomalyScoreDet ops s X false = .ok sc) :
    checkArray X = .ok X ∧ ops.scoreM m X = .ok sc := by
  rw [anomalyScoreDet, h1] at h
  dsimp only at h
  cases hX : checkArray X with
  | error e => rw [hX] at h; exact absurd h (by simp)
  | ok X₀ =>
    have hXX : X₀ = X := checkArray_ok_eq X X₀ hX
    subst hXX
    rw [hX] at h
    dsimp only at h
    rw [h2] at h
    dsimp only at h
    cases hsc : ops.scoreM m X₀ with
    | error e => rw [hsc] at h; exact absurd h (by simp)
    | ok sc₀ =>
      rw [hsc] at h
      simp only [Bool.false_eq_true, if_false, Except.ok.injEq] at h
      exact ⟨rfl, by rw [h]⟩

/-- Claim C8 (amended): `anomaly_score(X, normalize=True)` maps raw scores
through the min-max normalizer fitted on the training scores; raw scores
within the training range normalize into `[0, 1]`, and — when the training
scores are not all equal — the normalized training scores span exactly
`[0, 1]`, with minimum `0` and maximum `1`. -/
theorem normalize_minmax_span {M : Type} (ops : SubtypeOps M) (c : ℝ) (X X₂ : Mat)
    (s s' : DetectorState M) (scores sc₂ : List ℝ)
    (hfit : fitDet ops c X s = (none, s'))
    (hsc : s'.anomaly_score_ = some scores) (hne : scores ≠ [])
    (hlt : listMin scores < listMax scores)
    (h₂raw : anomalyScoreDet ops s' X₂ false = .ok sc₂)
    (hin : ∀ v ∈ sc₂, listMin scores ≤ v ∧ v ≤ listMax scores) :
    anomalyScoreDet ops s' X₂ true
        = .ok (sc₂.map (minmaxTransform (listMin scores) (listMax scores))) ∧
      (∀ w ∈ sc₂.map (minmaxTransform (listMin scores) (listMax scores)),
        0 ≤ w ∧ w ≤ 1) ∧
      anomalyScoreDet ops s' X true
        = .ok (scores.map (minmaxTransform (listMin scores) (listMax scores))) ∧
      listMin (scores.map (minmaxTransform (listMin scores) (listMax scores))) = 0 ∧
      listMax (scores.map (minmaxTransform (listMin scores) (listMax scores))) = 1 := by
  obtain ⟨hc, hX, m, scores₀, hm, hsc₀, hstate⟩ := fitDet_ok_inv ops c X s s' hfit
  have hseq : scores₀ = scores := by
    rw [hstate] at hsc
    simpa using hsc
  subst hseq
  have hscaler : s'.scaler = some (listMin scores₀, listMax scores₀) := by rw [hstate]
  have hmodel : s'.model = some m := by rw [hstate]
  obtain ⟨hX₂, hsc₂⟩ := anomalyScoreDet_ok_inv ops s' (listMin scores₀) (listMax scores₀)
    m X₂ sc₂ hscaler hmodel h₂raw
  refine ⟨?_, ?_, ?_, ?_, ?_⟩
  · have h := anomalyScoreDet_fitted ops s' (listMin scores₀) (listMax scores₀) m X₂ sc₂
      true hscaler hmodel hX₂ hsc₂
    simpa using h
  · intro w hw
    rcases List.mem_map.1 hw with ⟨v, hv, rfl⟩
    exact minmax_unit_interval _ _ v hlt (hin v hv).1 (hin v hv).2
  · have h := anomalyScoreDet_fitted ops s' (listMin scores₀) (listMax scores₀) m X scores₀
      true hscaler hmodel hX hsc₀
    simpa using h
  · refine listMin_eq_of _ 0 ?_ ?_
    · exact List.mem_map.2 ⟨listMin scores₀, listMin_mem scores₀ hne, minmax_at_min _ _⟩
    · intro x hx
      rcases List.mem_map.1 hx with ⟨v, hv, rfl⟩
      exact (minmax_unit_interval _ _ v hlt (listMin_le scores₀ v hv)
        (le_listMax scores₀ v hv)).1
  · refine listMax_eq_of _ 1 ?_ ?_
    · exact List.mem_map.2 ⟨listMax scores₀, listMax_mem scores₀ hne, minmax_at_max _ _ hlt⟩
    · intro x hx
      rcases List.mem_map.1 hx with ⟨v, hv, rfl⟩
      exact (minmax_unit_interval _ _ v hlt (listMin_le scores₀ v hv)
        (le_listMax scores₀ v hv)).2

/-- Claim C8 counterexample: on the training set `{0, 2}` with
`n_neighbors = 2` all training scores are equal (`[0, 0]`), the min-max range
is degenerate, and the normalized training scores are `[0, 0]` — their
maximum is `0`, not `1`, so they do not span `[0, 1]`. -/
theorem normalize_constant_scores_no_span :
    fitDet (empiricalOps 2 1) (1 / 2) [[0], [2]] (freshDetector Mat)
        = (none, ⟨some [[0], [2]], some [0, 0], some 0, some (0, 0)⟩) ∧
      anomalyScoreDet (empiricalOps 2 1)
          (⟨some [[0], [2]], some [0, 0], some 0, some (0, 0)⟩ : DetectorState Mat)
          [[0], [2]] true
        = .ok [0, 0] ∧
      listMax [(0 : ℝ), 0] ≠ 1 := by
  refine ⟨fit_X2_eval, ?_, ?_⟩
  · have h := anomalyScoreDet_fitted (empiricalOps 2 1)
      ⟨some [[0], [2]], some [0, 0], some 0, some (0, 0)⟩ 0 0 [[0], [2]] [[0], [2]]
      [0, 0] true rfl rfl checkArray_X2 empOps_scoreM_X2
    simpa [minmaxTransform] using h
  · norm_num [listMax, max_def]

/-! ### Evaluations on the four-point training sets -/

/-- Scoring one row once its neighbor distances and radius are known. -/
theorem empScore_eval (k : ℕ) (train : Mat) (x : List ℝ) (ds : List ℝ) (r : ℝ)
    (hd : kneighborsDists train k 1 x = ds) (hr : radiusOf ds = r) (hx : x.length = 1) :
    empiricalScoreRow k 1 train x = -Real.log (k : ℝ) + Real.log r := by
  rw [empiricalScoreRow, hd, hr, hx]
  norm_num

/-- The training set `{0, 2, 4, 6}` with `n_neighbors = 2`: every row's
two retained distances are `[0, 2]`, so all four training scores are tied. -/
theorem empMap_X4 :
    ([[0], [2], [4], [6]] : Mat).map (empiricalScoreRow 2 1 [[0], [2], [4], [6]])
      = [0, 0, 0, 0] := by
  have hr : radiusOf [(0 : ℝ), 2] = 2 := by norm_num [radiusOf, listMax, max_def]
  have h0 : kneighborsDists [[0], [2], [4], [6]] 2 1 [(0 : ℝ)] = [0, 2] := by
    rw [kneighborsDists]
    norm_num [minkowski_one_dim, sortR, insortR]
  have h2 : kneighborsDists [[0], [2], [4], [6]] 2 1 [(2 : ℝ)] = [0, 2] := by
    rw [kneighborsDists]
    norm_num [minkowski_one_dim, sortR, insortR]
  have h4 : kneighborsDists [[0], [2], [4], [6]] 2 1 [(4 : ℝ)] = [0, 2] := by
    rw [kneighborsDists]
    norm_num [minkowski_one_dim, sortR, insortR]
  have h6 : kneighborsDists [[0], [2], [4], [6]] 2 1 [(6 : ℝ)] = [0, 2] := by
    rw [kneighborsDists]
    norm_num [minkowski_one_dim, sortR, insortR]
  have e0 := empScore_eval 2 [[0], [2], [4], [6]] [(0 : ℝ)] [0, 2] 2 h0 hr (by simp)
  have e2 := empScore_eval 2 [[0], [2], [4], [6]] [(2 : ℝ)] [0, 2] 2 h2 hr (by simp)
  have e4 := empScore_eval 2 [[0], [2], [4], [6]] [(4 : ℝ)] [0, 2] 2 h4 hr (by simp)
  have e6 := empScore_eval 2 [[0], [2], [4], [6]] [(6 : ℝ)] [0, 2] 2 h6 hr (by simp)
  simp only [List.map_cons, List.map_nil, e0, e2, e4, e6]
  norm_num

theorem empOps_scoreM_X4 :
    (empiricalOps 2 1).scoreM [[0], [2], [4], [6]] [[0], [2], [4], [6]]
      = .ok [0, 0, 0, 0] := by
  dsimp only [empiricalOps]
  rw [if_neg (by norm_num), empMap_X4]

theorem checkArray_X4 : checkArray [[0], [2], [4], [6]] = .ok [[(0 : ℝ)], [2], [4], [6]] := by
  rw [checkArray, if_pos]
  simp

theorem floor_three_halves : ⌊(3 / 2 : ℝ)⌋₊ = 1 := by
  rw [Nat.floor_eq_iff (by norm_num)]
  norm_num

theorem npPercentile_X4 : npPercentile [(0 : ℝ), 0, 0, 0] (100 * (1 - 1 / 2)) = 0 := by
  rw [npPercentile_eq]
  have hs : sortR [(0 : ℝ), 0, 0, 0] = [0, 0, 0, 0] := by norm_num [sortR, insortR]
  have harg : (100 * (1 - 1 / 2) : ℝ) / 100 * (([(0 : ℝ), 0, 0, 0].length : ℝ) - 1)
      = 3 / 2 := by norm_num
  rw [hs, harg, floor_three_halves]
  norm_num

theorem fit_X4_eval :
    fitDet (empiricalOps 2 1) (1 / 2) [[0], [2], [4], [6]] (freshDetector Mat)
      = (none, ⟨some [[0], [2], [4], [6]], some [0, 0, 0, 0], some 0, some (0, 0)⟩) := by
  rw [fitDet, if_pos (by norm_num)]
  rw [checkArray_X4]
  dsimp only [empiricalOps]
  rw [if_neg (by norm_num), empMap_X4]
  dsimp only
  have hmin : listMin [(0 : ℝ), 0, 0, 0] = 0 := by norm_num [listMin, min_def]
  have hmax : listMax [(0 : ℝ), 0, 0, 0] = 0 := by norm_num [listMax, max_def]
  rw [npPercentile_X4, hmin, hmax]

/-- Claim C2 counterexample: with tied training scores the flagged fraction is
not within one sample of the contamination.  On `{0, 2, 4, 6}` with
`n_neighbors = 2` and contamination `1/2`, all four training scores are `0`,
the threshold is their 50th percentile `0`, `predict` flags no sample, and
`|0/4 - 1/2| = 1/2 > 1/4`. -/
theorem tied_scores_break_fraction :
    fitDet (empiricalOps 2 1) (1 / 2) [[0], [2], [4], [6]] (freshDetector Mat)
        = (none, ⟨some [[0], [2], [4], [6]], some [0, 0, 0, 0], some 0, some (0, 0)⟩) ∧
      predictDet (empiricalOps 2 1)
          (⟨some [[0], [2], [4], [6]], some [0, 0, 0, 0], some 0, some (0, 0)⟩ :
            DetectorState Mat)
          [[0], [2], [4], [6]] none
        = .ok [1, 1, 1, 1] ∧
      ([(1 : ℤ), 1, 1, 1].count (-1)) = 0 ∧
      ¬ |((([(1 : ℤ), 1, 1, 1].count (-1) : ℕ) : ℝ) / 4 - 1 / 2)| ≤ 1 / 4 := by
  refine ⟨fit_X4_eval, ?_, by simp, ?_⟩
  · have h := predictDet_fitted (empiricalOps 2 1)
      ⟨some [[0], [2], [4], [6]], some [0, 0, 0, 0], some 0, some (0, 0)⟩ 0 0
      [[0], [2], [4], [6]] 0 [[0], [2], [4], [6]] [0, 0, 0, 0] none rfl rfl
      checkArray_X4 empOps_scoreM_X4 rfl
    rw [h]
    norm_num [npWhereLe]
  · have hcount : ([(1 : ℤ), 1, 1, 1].count (-1)) = 0 := by simp
    rw [hcount]
    push_cast
    rw [show ((0 : ℝ) / 4 - 1 / 2) = -(1 / 2) by norm_num, abs_neg,
      abs_of_pos (by norm_num : (0 : ℝ) < 1 / 2)]
    norm_num

/-! ### A training set with pairwise-distinct training scores

On `{0, 2, 10, 19}` with `n_neighbors = 3` the per-row radii are `10`, `8`,
`9` and `17`, so the four training scores `-log 3 + log r` are pairwise
distinct. -/

/-- The training matrix `{0, 2, 10, 19}`. -/
def X47 : Mat := [[0], [2], [10], [19]]

/-- Its four k-NN training scores for `n_neighbors = 3`, `p = 1`. -/
noncomputable def scores47 : List ℝ :=
  [-Real.log 3 + Real.log 10, -Real.log 3 + Real.log 8,
   -Real.log 3 + Real.log 9, -Real.log 3 + Real.log 17]

/-- The detector state after fitting on `X47` with contamination `1/2`. -/
noncomputable def state47 : DetectorState Mat :=
  ⟨some X47, some scores47, some (npPercentile scores47 (100 * (1 - 1 / 2))),
   some (listMin scores47, listMax scores47)⟩

theorem empMap_X47 : X47.map (empiricalScoreRow 3 1 X47) = scores47 := by
  have h0 : kneighborsDists X47 3 1 [(0 : ℝ)] = [0, 2, 10] := by
    rw [kneighborsDists, X47]
    norm_num [minkowski_one_dim, sortR, insortR]
  have h2 : kneighborsDists X47 3 1 [(2 : ℝ)] = [0, 2, 8] := by
    rw [kneighborsDists, X47]
    norm_num [minkowski_one_dim, sortR, insortR]
  have h10 : kneighborsDists X47 3 1 [(10 : ℝ)] = [0, 8, 9] := by
    rw [kneighborsDists, X47]
    norm_num [minkowski_one_dim, sortR, insortR]
  have h19 : kneighborsDists X47 3 1 [(19 : ℝ)] = [0, 9, 17] := by
    rw [kneighborsDists, X47]
    norm_num [minkowski_one_dim, sortR, insortR]
  have e0 := empScore_eval 3 X47 [(0 : ℝ)] [0, 2, 10] 10 h0
    (by norm_num [radiusOf, listMax, max_def]) (by simp)
  have e2 := empScore_eval 3 X47 [(2 : ℝ)] [0, 2, 8] 8 h2
    (by norm_num [radiusOf, listMax, max_def]) (by simp)
  have e10 := empScore_eval 3 X47 [(10 : ℝ)] [0, 8, 9] 9 h10
    (by norm_num [radiusOf, listMax, max_def]) (by simp)
  have e19 := empScore_eval 3 X47 [(19 : ℝ)] [0, 9, 17] 17 h19
    (by norm_num [radiusOf, listMax, max_def]) (by simp)
  have hmap : X47.map (empiricalScoreRow 3 1 X47)
      = [empiricalScoreRow 3 1 X47 [0], empiricalScoreRow 3 1 X47 [2],
         empiricalScoreRow 3 1 X47 [10], empiricalScoreRow 3 1 X47 [19]] := rfl
  rw [hmap, e0, e2, e10, e19, scores47]
  norm_num

theorem checkArray_X47 : checkArray X47 = .ok X47 := by
  rw [checkArray, if_pos]
  simp [X47]

theorem fit_X47_eval :
    fitDet (empiricalOps 3 1) (1 / 2) X47 (freshDetector Mat) = (none, state47) := by
  rw [fitDet, if_pos (by norm_num)]
  rw [checkArray_X47]
  dsimp only [empiricalOps]
  rw [if_neg (by rw [X47]; norm_num), empMap_X47]
  dsimp only
  rfl

theorem scores47_nodup : scores47.Nodup := by
  have h89 : Real.log 8 < Real.log 9 := Real.log_lt_log (by norm_num) (by norm_num)
  have h910 : Real.log 9 < Real.log 10 := Real.log_lt_log (by norm_num) (by norm_num)
  have h1017 : Real.log 10 < Real.log 17 := Real.log_lt_log (by norm_num) (by norm_num)
  have hne1 : (-Real.log 3 + Real.log 10) ≠ (-Real.log 3 + Real.log 8) := by
    intro h; linarith
  have hne2 : (-Real.log 3 + Real.log 10) ≠ (-Real.log 3 + Real.log 9) := by
    intro h; linarith
  have hne3 : (-Real.log 3 + Real.log 10) ≠ (-Real.log 3 + Real.log 17) := by
    intro h; linarith
  have hne4 : (-Real.log 3 + Real.log 8) ≠ (-Real.log 3 + Real.log 9) := by
    intro h; linarith
  have hne5 : (-Real.log 3 + Real.log 8) ≠ (-Real.log 3 + Real.log 17) := by
    intro h; linarith
  have hne6 : (-Real.log 3 + Real.log 9) ≠ (-Real.log 3 + Real.log 17) := by
    intro h; linarith
  simp [scores47, List.nodup_cons, hne1, hne2, hne3, hne4, hne5, hne6]

/-- Claim C2 witness: on `{0, 2, 10, 19}` with `n_neighbors = 3` and
contamination `1/2`, the training scores are pairwise distinct, the fitted
threshold is their 50th percentile, and the flagged fraction is within one
sample of `1/2`. -/
theorem threshold_percentile_fraction_witness :
    scores47 ≠ [] ∧ scores47.Nodup ∧
      state47.threshold_ = some (npPercentile scores47 (100 * (1 - 1 / 2))) ∧
      predictDet (empiricalOps 3 1) state47 X47 none
        = .ok (npWhereLe scores47 (npPercentile scores47 (100 * (1 - 1 / 2)))) ∧
      |(((npWhereLe scores47 (npPercentile scores47 (100 * (1 - 1 / 2)))).count (-1) : ℝ)
          / (scores47.length : ℝ)) - (1 / 2)| ≤ 1 / (scores47.length : ℝ) := by
  have hne : scores47 ≠ [] := by simp [scores47]
  have h := threshold_percentile_fraction (empiricalOps 3 1) (1 / 2) X47
    (freshDetector Mat) state47 scores47 fit_X47_eval rfl hne scores47_nodup
  exact ⟨hne, scores47_nodup, h.1, h.2.1, h.2.2⟩

/-! ### A training set with non-constant training scores

On `{0, 1, 3}` with `n_neighbors = 2` the radii are `1`, `1`, `2`, so the
training scores are `[-log 2, -log 2, 0]`: not all equal. -/

/-- The training matrix `{0, 1, 3}`. -/
def X3 : Mat := [[0], [1], [3]]

/-- Its three k-NN training scores for `n_neighbors = 2`, `p = 1`. -/
noncomputable def scores3 : List ℝ := [-Real.log 2, -Real.log 2, 0]

/-- The detector state after fitting on `X3` with contamination `0`. -/
noncomputable def state3 : DetectorState Mat :=
  ⟨some X3, some scores3, some (npPercentile scores3 (100 * (1 - 0))),
   some (listMin scores3, listMax scores3)⟩

theorem empMap_X3 : X3.map (empiricalScoreRow 2 1 X3) = scores3 := by
  have h0 : kneighborsDists X3 2 1 [(0 : ℝ)] = [0, 1] := by
    rw [kneighborsDists, X3]
    norm_num [minkowski_one_dim, sortR, insortR]
  have h1 : kneighborsDists X3 2 1 [(1 : ℝ)] = [0, 1] := by
    rw [kneighborsDists, X3]
    norm_num [minkowski_one_dim, sortR, insortR]
  have h3 : kneighborsDists X3 2 1 [(3 : ℝ)] = [0, 2] := by
    rw [kneighborsDists, X3]
    norm_num [minkowski_one_dim, sortR, insortR]
  have e0 := empScore_eval 2 X3 [(0 : ℝ)] [0, 1] 1 h0
    (by norm_num [radiusOf, listMax, max_def]) (by simp)
  have e1 := empScore_eval 2 X3 [(1 : ℝ)] [0, 1] 1 h1
    (by norm_num [radiusOf, listMax, max_def]) (by simp)
  have e3 := empScore_eval 2 X3 [(3 : ℝ)] [0, 2] 2 h3
    (by norm_num [radiusOf, listMax, max_def]) (by simp)
  have hmap : X3.map (empiricalScoreRow 2 1 X3)
      = [empiricalScoreRow 2 1 X3 [0], empiricalScoreRow 2 1 X3 [1],
         empiricalScoreRow 2 1 X3 [3]] := rfl
  rw [hmap, e0, e1, e3, scores3]
  norm_num [Real.log_one]

theorem empOps_scoreM_X3 : (empiricalOps 2 1).scoreM X3 X3 = .ok scores3 := by
  dsimp only [empiricalOps]
  rw [if_neg (by rw [X3]; norm_num), empMap_X3]

theorem checkArray_X3 : checkArray X3 = .ok X3 := by
  rw [checkArray, if_pos]
  simp [X3]

theorem fit_X3_eval :
    fitDet (empiricalOps 2 1) 0 X3 (freshDetector Mat) = (none, state3) := by
  rw [fitDet, if_pos (by norm_num)]
  rw [checkArray_X3]
  dsimp only [empiricalOps]
  rw [if_neg (by rw [X3]; norm_num), empMap_X3]
  dsimp only
  rfl

theorem listMin_scores3 : listMin scores3 = -Real.log 2 := by
  have hlog : 0 ≤ Real.log 2 := Real.log_nonneg (by norm_num)
  refine listMin_eq_of _ _ (by simp [scores3]) ?_
  intro x hx
  rw [scores3] at hx
  rcases List.mem_cons.1 hx with h | hx
  · rw [h]
  · rcases List.mem_cons.1 hx with h | hx
    · rw [h]
    · rcases List.mem_cons.1 hx with h | hx
      · rw [h]; linarith
      · exact absurd hx (List.not_mem_nil x)

theorem listMax_scores3 : listMax scores3 = 0 := by
  have hlog : 0 ≤ Real.log 2 := Real.log_nonneg (by norm_num)
  refine listMax_eq_of _ _ (by simp [scores3]) ?_
  intro x hx
  rw [scores3] at hx
  rcases List.mem_cons.1 hx with h | hx
  · rw [h]; linarith
  · rcases List.mem_cons.1 hx with h | hx
    · rw [h]; linarith
    · rcases List.mem_cons.1 hx with h | hx
      · rw [h]
      · exact absurd hx (List.not_mem_nil x)

/-- Claim C8 witness: on `{0, 1, 3}` with `n_neighbors = 2` and contamination
`0`, the training scores `[-log 2, -log 2, 0]` are not all equal, and the
normalized training scores span exactly `[0, 1]`. -/
theorem normalize_minmax_span_witness :
    listMin scores3 < listMax scores3 ∧
      anomalyScoreDet (empiricalOps 2 1) state3 X3 true
        = .ok (scores3.map (minmaxTransform (listMin scores3) (listMax scores3))) ∧
      listMin (scores3.map (minmaxTransform (listMin scores3) (listMax scores3))) = 0 ∧
      listMax (scores3.map (minmaxTransform (listMin scores3) (listMax scores3))) = 1 := by
  have hlog : 0 < Real.log 2 := Real.log_pos (by norm_num)
  have hlt : listMin scores3 < listMax scores3 := by
    rw [listMin_scores3, listMax_scores3]
    linarith
  have hne : scores3 ≠ [] := by simp [scores3]
  have h₂raw : anomalyScoreDet (empiricalOps 2 1) state3 X3 false = .ok scores3 := by
    have h := anomalyScoreDet_fitted (empiricalOps 2 1) state3 (listMin scores3)
      (listMax scores3) X3 X3 scores3 false rfl rfl checkArray_X3 empOps_scoreM_X3
    simpa using h
  have hin : ∀ v ∈ scores3, listMin scores3 ≤ v ∧ v ≤ listMax scores3 := by
    intro v hv
    rw [listMin_scores3, listMax_scores3]
    rw [scores3] at hv
    rcases List.mem_cons.1 hv with h | hv
    · rw [h]; constructor <;> linarith
    · rcases List.mem_cons.1 hv with h | hv
      · rw [h]; constructor <;> linarith
      · rcases List.mem_cons.1 hv with h | hv
        · rw [h]; constructor <;> linarith
        · exact absurd hv (List.not_mem_nil v)
  have h := normalize_minmax_span (empiricalOps 2 1) 0 X3 X3 (freshDetector Mat)
    state3 scores3 scores3 fit_X3_eval rfl hne hlt h₂raw hin
  exact ⟨hlt, h.1, h.2.2.2.1, h.2.2.2.2⟩

end Kenchi
